import Mathlib

/-!
Verification of the SmartTime backend core (task recurrence expansion,
local schedule recommendation, TTL caches, task-store cache invalidation,
and the async job queue) against its natural-language specification.

The Python source is shallowly embedded: datetimes are integers counting
minutes since 0001-01-01 00:00 in the proleptic Gregorian calendar (the
calendar Python's `datetime` uses; `weekday()` of ordinal day 1 is Monday = 0),
dicts keyed by strings are association lists, and raised exceptions are
modelled with `Except`.
-/

namespace SmartTime

/-! ## Datetime model (minutes since 0001-01-01 00:00, proleptic Gregorian) -/



def minutesPerDay : Int := 1440

/-- Days since 0001-01-01 (so ordinal day `n` in Python is `dayIndex + 1`). -/
def dayIndex (t : Int) : Int := t / minutesPerDay

/-- Minute-of-day, mirroring the time-of-day part of a Python datetime. -/
def timeOfDay (t : Int) : Int := t % minutesPerDay

/-- Python `datetime.weekday()`: 0 = Monday. Ordinal day 1 (0001-01-01) is a
Monday, and our epoch is exactly that day. -/
def weekday (t : Int) : Int := dayIndex t % 7

def isLeapYear (y : Int) : Bool := y % 4 == 0 && (y % 100 != 0 || y % 400 == 0)

/-- `calendar.monthrange(y, m)[1]`: number of days in the month. -/
def daysInMonth (y m : Int) : Int :=
  if m = 2 then (if isLeapYear y then 29 else 28)
  else if m = 4 ∨ m = 6 ∨ m = 9 ∨ m = 11 then 30
  else 31

/-- Civil date to day index (days since 0001-01-01), standard closed-form
Gregorian conversion (era/year-of-era/day-of-year arithmetic). -/
def daysFromCivil (y m d : Int) : Int :=
  let y2 := if m ≤ 2 then y - 1 else y
  let era := y2.fdiv 400
  let yoe := y2 - era * 400
  let mp := (m + 9) % 12
  let doy := (153 * mp + 2) / 5 + d - 1
  let doe := yoe * 365 + yoe / 4 - yoe / 100 + doy
  era * 146097 + doe - 306

/-- Day index (days since 0001-01-01) to civil `(year, month, day)`. -/
def civilFromDays (z0 : Int) : Int × Int × Int :=
  let z := z0 + 306
  let era := z.fdiv 146097
  let doe := z - era * 146097
  let yoe := (doe - doe / 1460 + doe / 36524 - doe / 146096) / 365
  let y := yoe + era * 400
  let doy := doe - (365 * yoe + yoe / 4 - yoe / 100)
  let mp := (5 * doy + 2) / 153
  let d := doy - (153 * mp + 2) / 5 + 1
  let m := mp + (if mp < 10 then 3 else -9)
  ((if m ≤ 2 then y + 1 else y), m, d)

/-- Build a datetime from civil date plus minute-of-day
(Python `datetime(year, month, day, ...)` / `.replace(...)`). -/
def mkDateTime (y m d tod : Int) : Int := daysFromCivil y m d * minutesPerDay + tod

/-! ## Data model (`app/models/task.py`) -/

inductive TaskPriority
  | low
  | medium
  | high
deriving DecidableEq

inductive RecurrenceFrequency
  | daily
  | weekly
  | monthly
  | yearly
deriving DecidableEq

inductive ReminderType
  | none
  | at_time
  | before_5min
  | before_15min
  | before_30min
  | before_1hour
  | before_1day
deriving DecidableEq

structure RecurrenceRule where
  frequency : RecurrenceFrequency
  interval : Int
  days_of_week : Option (List Int)
  day_of_month : Option Int
  end_date : Option Int
  count : Option Int
deriving DecidableEq

structure Task where
  id : String
  title : String
  start : Int
  «end» : Option Int
  priority : TaskPriority
  recurrence_rule : Option RecurrenceRule
  is_recurring : Bool
  parent_task_id : Option String
  reminder_type : ReminderType
  is_important : Bool
  reminder_sent : Bool
  created_at : Int
  updated_at : Int
deriving DecidableEq

/-! ## Recurrence engine (`TaskService._calculate_next_occurrence`) -/

/-- Embedding of `TaskService._calculate_next_occurrence`.  Note that Lean's
`%` and `/` on `Int` agree with Python's `%` and `//` for positive moduli and
divisors, so `(target_weekday - current_weekday) % 7` carries over verbatim. -/
def calcNextOccurrence (start_time : Int) (rule : RecurrenceRule)
    (occurrence_number : Nat) : Int :=
  match rule.frequency with
  | .daily => start_time + minutesPerDay * (rule.interval * occurrence_number)
  | .weekly =>
    match rule.days_of_week with
    | some (target_weekday :: _) =>
      let current_weekday := weekday start_time
      if occurrence_number = 1 then
        let days_ahead := (target_weekday - current_weekday) % 7
        let days_ahead := if days_ahead = 0 then 7 else days_ahead
        start_time + minutesPerDay * days_ahead
      else
        let days_ahead := (target_weekday - current_weekday) % 7
        let days_ahead :=
          if days_ahead = 0 ∧ occurrence_number > 1 then 7 else days_ahead
        let days_ahead := days_ahead + 7 * rule.interval * ((occurrence_number : Int) - 1)
        start_time + minutesPerDay * days_ahead
    | _ => start_time + minutesPerDay * (7 * (rule.interval * occurrence_number))
  | .monthly =>
    let months_to_add := rule.interval * occurrence_number
    let ymd := civilFromDays (dayIndex start_time)
    let month := ymd.2.1 + months_to_add
    -- the source's year-overflow `while month > 12` loop, in closed form
    let year := ymd.1 + (month - 1) / 12
    let month := (month - 1) % 12 + 1
    let last_day := daysInMonth year month
    if ymd.2.2 ≤ last_day then
      mkDateTime year month ymd.2.2 (timeOfDay start_time)
    else
      -- `except ValueError`: clamp to the last day of the month
      mkDateTime year month (min ymd.2.2 last_day) (timeOfDay start_time)
  | .yearly =>
    let ymd := civilFromDays (dayIndex start_time)
    let year := ymd.1 + rule.interval * occurrence_number
    if ymd.2.2 ≤ daysInMonth year ymd.2.1 then
      mkDateTime year ymd.2.1 ymd.2.2 (timeOfDay start_time)
    else
      -- `except ValueError`: Feb 29 in a non-leap target year becomes day 28
      mkDateTime year ymd.2.1 28 (timeOfDay start_time)

/-! ## Recurrence engine (`TaskService._generate_recurring_tasks`) -/

/-- `if rule.end_date and next_start > rule.end_date: break`
(a Python datetime is always truthy). -/
def breakAtEndDate (rule : RecurrenceRule) (next_start : Int) : Bool :=
  match rule.end_date with
  | some e => next_start > e
  | none => false

/-- `if rule.count and i >= rule.count: break`
(Python truthiness: `count = 0` is falsy). -/
def breakAtCount (rule : RecurrenceRule) (i : Nat) : Bool :=
  match rule.count with
  | some c => c ≠ 0 ∧ (i : Int) ≥ c
  | none => false

/-- The `Task(...)` constructed for one generated instance.  Fields absent
from the constructor call take the pydantic defaults
(`reminder_type="none"`, `is_important=False`, `reminder_sent=False`).
`next_end` mirrors `if duration: next_end = next_start + duration`
(a zero timedelta is falsy). -/
def mkRecurringInstance (parent : Task) (newId : String) (next_start : Int)
    (duration : Option Int) : Task :=
  { id := newId
    title := parent.title
    start := next_start
    «end» :=
      match duration with
      | some d => if d ≠ 0 then some (next_start + d) else Option.none
      | none => Option.none
    priority := parent.priority
    recurrence_rule := none
    is_recurring := false
    parent_task_id := some parent.id
    reminder_type := .none
    is_important := false
    reminder_sent := false
    created_at := parent.created_at
    updated_at := parent.updated_at }

/-- The `for i in range(1, max_instances + 1)` loop body of
`_generate_recurring_tasks`, with the remaining iteration budget as fuel. -/
def genLoop (parent : Task) (rule : RecurrenceRule) (duration : Option Int)
    (idGen : Nat → String) : Nat → Nat → List Task
  | 0, _ => []
  | fuel + 1, i =>
    let next_start := calcNextOccurrence parent.start rule i
    if breakAtEndDate rule next_start then []
    else if breakAtCount rule i then []
    else
      mkRecurringInstance parent (idGen i) next_start duration ::
        genLoop parent rule duration idGen fuel (i + 1)

/-- Embedding of `TaskService._generate_recurring_tasks`.  Fresh ids from
`_generate_task_id` (random uuid hex) are modelled by the supply `idGen`. -/
def generateRecurringTasks (parent : Task) (max_instances : Nat)
    (idGen : Nat → String) : List Task :=
  match parent.recurrence_rule with
  | none => []
  | some rule =>
    let duration := parent.«end».map (fun e => e - parent.start)
    genLoop parent rule duration idGen max_instances 1

/-! ## Helper lemmas about the expansion loop -/

theorem mem_genLoop {parent : Task} {rule : RecurrenceRule} {duration : Option Int}
    {idGen : Nat → String} {inst : Task} :
    ∀ {fuel i : Nat}, inst ∈ genLoop parent rule duration idGen fuel i →
    ∃ j, i ≤ j ∧
      breakAtEndDate rule (calcNextOccurrence parent.start rule j) = false ∧
      breakAtCount rule j = false ∧
      inst = mkRecurringInstance parent (idGen j)
        (calcNextOccurrence parent.start rule j) duration := by
  intro fuel
  induction fuel with
  | zero => intro i h; simp [genLoop] at h
  | succ fuel ih =>
    intro i h
    rw [genLoop] at h
    by_cases hbe : breakAtEndDate rule (calcNextOccurrence parent.start rule i)
    · simp [hbe] at h
    · by_cases hbc : breakAtCount rule i
      · simp [hbe, hbc] at h
      · simp only [hbe, hbc, Bool.false_eq_true, if_false, List.mem_cons] at h
        rcases h with h | h
        · exact ⟨i, le_refl i, by simpa using hbe, by simpa using hbc, h⟩
        · obtain ⟨j, hij, h1, h2, h3⟩ := ih h
          exact ⟨j, by omega, h1, h2, h3⟩

theorem get?_genLoop {parent : Task} {rule : RecurrenceRule} {duration : Option Int}
    {idGen : Nat → String} :
    ∀ {fuel i j : Nat} {inst : Task},
      (genLoop parent rule duration idGen fuel i).get? j = some inst →
      inst = mkRecurringInstance parent (idGen (i + j))
        (calcNextOccurrence parent.start rule (i + j)) duration := by
  intro fuel
  induction fuel with
  | zero => intro i j inst h; simp [genLoop] at h
  | succ fuel ih =>
    intro i j inst h
    rw [genLoop] at h
    by_cases hbe : breakAtEndDate rule (calcNextOccurrence parent.start rule i)
    · simp [hbe] at h
    · by_cases hbc : breakAtCount rule i
      · simp [hbe, hbc] at h
      · simp only [hbe, hbc, Bool.false_eq_true, if_false] at h
        cases j with
        | zero =>
          simp only [List.get?, Option.some.injEq] at h
          simpa using h.symm
        | succ j =>
          have hrec := @ih (i + 1) j inst (by simpa using h)
          have heq : i + 1 + j = i + (j + 1) := by omega
          rw [heq] at hrec
          exact hrec

/-! ## Claim C1: behaviour of `endDate` during expansion -/

/-- A definition task used to exercise the `endDate` stop condition: daily
recurrence starting 2024-01-01 10:00 with `endDate` 2024-01-02 10:00. -/
def c1Parent : Task :=
  { id := "task_c1"
    title := "daily"
    start := mkDateTime 2024 1 1 600
    «end» := none
    priority := .medium
    recurrence_rule := some
      { frequency := .daily, interval := 1, days_of_week := none
        day_of_month := none, end_date := some (mkDateTime 2024 1 2 600)
        count := none }
    is_recurring := true
    parent_task_id := none
    reminder_type := .none
    is_important := false
    reminder_sent := false
    created_at := mkDateTime 2024 1 1 0
    updated_at := mkDateTime 2024 1 1 0 }

def c1IdGen : Nat → String := fun n => "task_inst" ++ toString n

/-- Claim C1 as stated is false: the code only breaks when
`next_start > rule.end_date`, so an instance whose start is exactly `endDate`
is emitted — `endDate` is an inclusive bound, not an exclusive one.  Here the
first generated occurrence starts exactly at the rule's `endDate`. -/
theorem c1_counterexample :
    ∃ inst ∈ generateRecurringTasks c1Parent 3 c1IdGen,
      ¬ inst.start < mkDateTime 2024 1 2 600 := by decide

/-- Claim C1 (amended): for every definition task whose recurrence rule has
`endDate` set, every instance emitted by expansion has start at or before
`endDate` (the bound is inclusive; the loop stops at the first occurrence
strictly after `endDate`). -/
theorem c1_end_date_inclusive (parent : Task) (rule : RecurrenceRule) (e : Int)
    (max_instances : Nat) (idGen : Nat → String)
    (hrule : parent.recurrence_rule = some rule) (he : rule.end_date = some e) :
    ∀ inst ∈ generateRecurringTasks parent max_instances idGen, inst.start ≤ e := by
  intro inst hmem
  rw [generateRecurringTasks, hrule] at hmem
  obtain ⟨j, _, hbe, _, hinst⟩ := mem_genLoop hmem
  rw [breakAtEndDate, he] at hbe
  simp only [decide_eq_false_iff_not, not_lt] at hbe
  rw [hinst]
  exact hbe

/-- Witness for `c1_end_date_inclusive` at a concrete definition task. -/
theorem c1_end_date_inclusive_witness :
    (generateRecurringTasks c1Parent 3 c1IdGen).all
      (fun inst => inst.start ≤ mkDateTime 2024 1 2 600) = true := by
  rw [List.all_eq_true]
  intro inst hmem
  simpa using c1_end_date_inclusive c1Parent _ _ 3 c1IdGen rfl rfl inst hmem

/-! ## Claim C9: behaviour of `count` during expansion -/

theorem genLoop_length_of_count {parent : Task} {rule : RecurrenceRule}
    {duration : Option Int} {idGen : Nat → String} {c : Int}
    (hcount : rule.count = some c) (hend : rule.end_date = none) :
    ∀ (fuel i : Nat), 1 ≤ i → (i : Int) ≤ c → c ≤ (fuel : Int) + i →
      (genLoop parent rule duration idGen fuel i).length = (c - i).toNat := by
  intro fuel
  induction fuel with
  | zero =>
    intro i _ hic hci
    simp only [genLoop, List.length_nil]
    omega
  | succ fuel ih =>
    intro i hi hic hci
    have hbe : breakAtEndDate rule (calcNextOccurrence parent.start rule i) = false := by
      simp [breakAtEndDate, hend]
    by_cases hstop : (i : Int) = c
    · have hbc : breakAtCount rule i = true := by
        simp only [breakAtCount, hcount, decide_eq_true_eq]
        omega
      rw [genLoop]
      simp only [hbe, hbc, Bool.false_eq_true, if_false, if_true, List.length_nil]
      omega
    · have hbc : breakAtCount rule i = false := by
        simp only [breakAtCount, hcount, decide_eq_false_iff_not]
        omega
      rw [genLoop]
      simp only [hbe, hbc, Bool.false_eq_true, if_false, List.length_cons]
      rw [ih (i + 1) (by omega) (by push_cast; omega) (by push_cast at hci ⊢; omega)]
      omega

/-- Claim C9: for a rule with `count = c ≥ 1`, no `endDate`, and
`maxInstances ≥ c`, expansion emits exactly `c - 1` instances — the loop
stops without emitting at the first index `i ≥ c`, so `count = 1` yields
zero instances. -/
theorem c9_count_yields_c_minus_one (parent : Task) (rule : RecurrenceRule) (c : Int)
    (max_instances : Nat) (idGen : Nat → String)
    (hrule : parent.recurrence_rule = some rule) (hcount : rule.count = some c)
    (hend : rule.end_date = none) (hc : 1 ≤ c) (hmax : c ≤ (max_instances : Int)) :
    (generateRecurringTasks parent max_instances idGen).length = (c - 1).toNat := by
  rw [generateRecurringTasks, hrule]
  exact genLoop_length_of_count hcount hend max_instances 1 (le_refl 1)
    (by omega) (by push_cast; omega)

/-- A definition task with `count = 3`: expansion must emit exactly 2 instances. -/
def c9Parent : Task :=
  { c1Parent with
    id := "task_c9"
    recurrence_rule := some
      { frequency := .daily, interval := 1, days_of_week := none
        day_of_month := none, end_date := none, count := some 3 } }

/-- Witness for `c9_count_yields_c_minus_one`: `count = 3` gives 2 instances. -/
theorem c9_count_witness :
    (generateRecurringTasks c9Parent 52 c1IdGen).length = ((3 : Int) - 1).toNat :=
  c9_count_yields_c_minus_one c9Parent _ 3 52 c1IdGen rfl rfl rfl (by norm_num)
    (by norm_num)

/-! ## Claim C3: weekly recurrence with a single weekday -/

theorem weekday_nonneg (t : Int) : 0 ≤ weekday t :=
  Int.emod_nonneg _ (by norm_num)

theorem weekday_lt_seven (t : Int) : weekday t < 7 :=
  Int.emod_lt_of_pos _ (by norm_num)

theorem weekday_add_mul (t k : Int) :
    weekday (t + minutesPerDay * k) = (weekday t + k) % 7 := by
  unfold weekday dayIndex minutesPerDay
  have h : (t + 1440 * k) / 1440 = t / 1440 + k := by
    rw [mul_comm]
    exact Int.add_mul_ediv_right t k (by norm_num)
  rw [h]
  omega

/-- Closed form of the weekly-with-`daysOfWeek` branch of
`_calculate_next_occurrence`: both the `i = 1` and the `i > 1` case reduce to
the same weekday offset plus whole weeks. -/
theorem calcNext_weekly_closed (start : Int) (rule : RecurrenceRule) (d : Int)
    (hf : rule.frequency = .weekly) (hdow : rule.days_of_week = some [d])
    (i : Nat) (hi : 1 ≤ i) :
    calcNextOccurrence start rule i =
      start + minutesPerDay *
        ((if (d - weekday start) % 7 = 0 then 7 else (d - weekday start) % 7) +
          7 * rule.interval * ((i : Int) - 1)) := by
  rw [calcNextOccurrence, hf, hdow]
  by_cases h1 : i = 1
  · subst h1
    simp only [if_pos rfl]
    by_cases hb : (d - weekday start) % 7 = 0
    · simp only [hb, if_pos rfl]
      push_cast
      ring
    · simp only [hb, if_neg hb]
      push_cast
      ring
  · simp only [h1, if_neg h1]
    have hgt : i > 1 := by omega
    by_cases hb : (d - weekday start) % 7 = 0
    · have c1 : (d - weekday start) % 7 = 0 ∧ i > 1 := ⟨hb, hgt⟩
      rw [if_pos c1, if_pos hb]
      simp
    · have c1 : ¬((d - weekday start) % 7 = 0 ∧ i > 1) := fun hc => hb hc.1
      rw [if_neg c1, if_neg hb]
      simp

/-- Claim C3: for a weekly rule with `daysOfWeek = [d]` (a weekday index,
0 = Monday), every instance emitted by expansion starts on weekday `d`, the
first instance starts strictly after `definition.start` (exactly a week later
when `definition.start` already falls on `d`), and consecutive instances are
exactly `interval` weeks apart. -/
theorem c3_weekly_single_day (parent : Task) (rule : RecurrenceRule) (d : Int)
    (max_instances : Nat) (idGen : Nat → String)
    (hrule : parent.recurrence_rule = some rule)
    (hf : rule.frequency = .weekly) (hdow : rule.days_of_week = some [d])
    (hd0 : 0 ≤ d) (hd6 : d ≤ 6) :
    (∀ inst ∈ generateRecurringTasks parent max_instances idGen,
      weekday inst.start = d) ∧
    (∀ inst0, (generateRecurringTasks parent max_instances idGen).head? = some inst0 →
      parent.start < inst0.start ∧
      (weekday parent.start = d → inst0.start = parent.start + 7 * minutesPerDay)) ∧
    (∀ j inst inst',
      (generateRecurringTasks parent max_instances idGen).get? j = some inst →
      (generateRecurringTasks parent max_instances idGen).get? (j + 1) = some inst' →
      inst'.start = inst.start + 7 * rule.interval * minutesPerDay) := by
  have hw0 := weekday_nonneg parent.start
  have hw7 := weekday_lt_seven parent.start
  refine ⟨?_, ?_, ?_⟩
  · intro inst hmem
    rw [generateRecurringTasks, hrule] at hmem
    obtain ⟨j, hj, _, _, hinst⟩ := mem_genLoop hmem
    rw [hinst]
    show weekday (calcNextOccurrence parent.start rule j) = d
    rw [calcNext_weekly_closed parent.start rule d hf hdow j hj]
    rw [weekday_add_mul]
    have hb0 : 0 ≤ (d - weekday parent.start) % 7 := Int.emod_nonneg _ (by norm_num)
    have hb7 : (d - weekday parent.start) % 7 < 7 := Int.emod_lt_of_pos _ (by norm_num)
    set b := (d - weekday parent.start) % 7 with hb
    have hsplit : (if b = 0 then (7 : Int) else b) = 7 ∨
        ((if b = 0 then (7 : Int) else b) = b ∧ b ≠ 0) := by
      by_cases h : b = 0
      · left; simp [h]
      · right; exact ⟨if_neg h, h⟩
    rcases hsplit with h | ⟨h, hne⟩ <;> rw [h] <;>
      · rw [mul_assoc, ← add_assoc, Int.add_mul_emod_self_left]
        omega
  · intro inst0 h0
    have h0' : (genLoop parent rule (parent.«end».map (fun e => e - parent.start))
        idGen max_instances 1).head? = some inst0 := by
      rw [generateRecurringTasks, hrule] at h0
      exact h0
    rw [← List.get?_zero] at h0'
    have hinst := get?_genLoop h0'
    rw [hinst]
    show parent.start < calcNextOccurrence parent.start rule (1 + 0) ∧
      (weekday parent.start = d →
        calcNextOccurrence parent.start rule (1 + 0) = parent.start + 7 * minutesPerDay)
    rw [calcNext_weekly_closed parent.start rule d hf hdow (1 + 0) (by omega)]
    have hcast : ((1 + 0 : Nat) : Int) - 1 = 0 := by norm_num
    rw [hcast, mul_zero, add_zero]
    have hb0 : 0 ≤ (d - weekday parent.start) % 7 := Int.emod_nonneg _ (by norm_num)
    have hb7 : (d - weekday parent.start) % 7 < 7 := Int.emod_lt_of_pos _ (by norm_num)
    set b := (d - weekday parent.start) % 7 with hb
    have hIf : (1 : Int) ≤ (if b = 0 then (7 : Int) else b) ∧
        (if b = 0 then (7 : Int) else b) ≤ 7 := by
      by_cases h : b = 0
      · rw [if_pos h]; omega
      · rw [if_neg h]; omega
    set w7 := (if b = 0 then (7 : Int) else b) with hw7def
    clear_value w7
    constructor
    · have h1w : (1 : Int) ≤ w7 := hIf.1
      have hmul : (1440 : Int) * 1 ≤ 1440 * w7 :=
        mul_le_mul_of_nonneg_left h1w (by norm_num)
      unfold minutesPerDay
      linarith
    · intro hwd
      have hbz : b = 0 := by
        rw [hb, hwd]
        simp
      rw [hw7def, if_pos hbz]
      unfold minutesPerDay
      ring
  · intro j inst inst' hj hj'
    have hj1 : (genLoop parent rule (parent.«end».map (fun e => e - parent.start))
        idGen max_instances 1).get? j = some inst := by
      rw [generateRecurringTasks, hrule] at hj
      exact hj
    have hj2 : (genLoop parent rule (parent.«end».map (fun e => e - parent.start))
        idGen max_instances 1).get? (j + 1) = some inst' := by
      rw [generateRecurringTasks, hrule] at hj'
      exact hj'
    have h1 := get?_genLoop hj1
    have h2 := get?_genLoop hj2
    rw [h1, h2]
    show calcNextOccurrence parent.start rule (1 + (j + 1)) =
      calcNextOccurrence parent.start rule (1 + j) + 7 * rule.interval * minutesPerDay
    rw [calcNext_weekly_closed parent.start rule d hf hdow (1 + (j + 1)) (by omega),
      calcNext_weekly_closed parent.start rule d hf hdow (1 + j) (by omega)]
    push_cast
    ring

/-- The "Team sync" scenario from the spec: a definition task starting on a
Tuesday at 20:00 with a weekly rule on `daysOfWeek = [1]` (Tuesday). -/
def c3Parent : Task :=
  { id := "task_c3"
    title := "Team sync"
    start := mkDateTime 2024 1 2 1200
    «end» := none
    priority := .medium
    recurrence_rule := some
      { frequency := .weekly, interval := 1, days_of_week := some [1]
        day_of_month := none, end_date := none, count := none }
    is_recurring := true
    parent_task_id := none
    reminder_type := .none
    is_important := false
    reminder_sent := false
    created_at := mkDateTime 2024 1 1 0
    updated_at := mkDateTime 2024 1 1 0 }

/-- Witness for `c3_weekly_single_day` on the concrete "Team sync" scenario. -/
theorem c3_weekly_single_day_witness :
    (∀ inst ∈ generateRecurringTasks c3Parent 3 c1IdGen, weekday inst.start = 1) ∧
    (∀ inst0, (generateRecurringTasks c3Parent 3 c1IdGen).head? = some inst0 →
      c3Parent.start < inst0.start ∧
      (weekday c3Parent.start = 1 → inst0.start = c3Parent.start + 7 * minutesPerDay)) ∧
    (∀ j inst inst',
      (generateRecurringTasks c3Parent 3 c1IdGen).get? j = some inst →
      (generateRecurringTasks c3Parent 3 c1IdGen).get? (j + 1) = some inst' →
      inst'.start = inst.start + 7 * 1 * minutesPerDay) :=
  c3_weekly_single_day c3Parent _ 1 3 c1IdGen rfl rfl rfl (by norm_num) (by norm_num)

/-! ## Claim C4: shape of an emitted instance -/

/-- A definition task that carries non-default reminder settings. -/
def c4Parent : Task :=
  { id := "task_c4"
    title := "review"
    start := mkDateTime 2024 3 1 540
    «end» := some (mkDateTime 2024 3 1 600)
    priority := .high
    recurrence_rule := some
      { frequency := .daily, interval := 1, days_of_week := none
        day_of_month := none, end_date := none, count := none }
    is_recurring := true
    parent_task_id := none
    reminder_type := .before_15min
    is_important := true
    reminder_sent := false
    created_at := mkDateTime 2024 3 1 0
    updated_at := mkDateTime 2024 3 1 0 }

/-- Claim C4 as stated is false: an emitted instance does not inherit the
definition's reminder settings.  The `Task(...)` constructor call in
`_generate_recurring_tasks` omits `reminder_type` and `is_important`, so the
instance falls back to the pydantic defaults (`"none"` / `False`) even though
the definition has `reminder_type = "before_15min"` and `is_important = True`. -/
theorem c4_counterexample :
    ∃ inst ∈ generateRecurringTasks c4Parent 2 c1IdGen,
      inst.reminder_type ≠ c4Parent.reminder_type ∧
      inst.is_important ≠ c4Parent.is_important := by decide

/-- Claim C4 (amended): every instance emitted by expansion has a fresh id
(distinct from the definition's id as long as the id supply avoids it),
`parentTaskId` equal to the definition's id, no recurrence rule,
`isRecurring = false`, and inherits the definition's title and priority —
but it does not inherit the reminder settings: `reminder_type`,
`is_important` and `reminder_sent` are reset to their defaults. -/
theorem c4_instance_shape (parent : Task) (max_instances : Nat)
    (idGen : Nat → String) (hfresh : ∀ n, idGen n ≠ parent.id) :
    ∀ inst ∈ generateRecurringTasks parent max_instances idGen,
      inst.recurrence_rule = none ∧
      inst.is_recurring = false ∧
      inst.parent_task_id = some parent.id ∧
      inst.id ≠ parent.id ∧
      inst.title = parent.title ∧
      inst.priority = parent.priority ∧
      inst.reminder_type = ReminderType.none ∧
      inst.is_important = false ∧
      inst.reminder_sent = false := by
  intro inst hmem
  rw [generateRecurringTasks] at hmem
  cases hr : parent.recurrence_rule with
  | none => rw [hr] at hmem; simp at hmem
  | some rule =>
    rw [hr] at hmem
    obtain ⟨j, _, _, _, hinst⟩ := mem_genLoop hmem
    rw [hinst]
    exact ⟨rfl, rfl, rfl, hfresh j, rfl, rfl, rfl, rfl, rfl⟩

/-- The concrete id supply `c1IdGen` only produces strings of length at least
nine, so it avoids any shorter id. -/
theorem c1IdGen_ne_short (n : Nat) (s : String) (hs : s.length < 9) :
    c1IdGen n ≠ s := by
  intro h
  have hlen : ("task_inst" ++ toString n).length = s.length := congrArg String.length h
  rw [String.length_append] at hlen
  have h9 : ("task_inst" : String).length = 9 := by decide
  omega

/-- Witness for `c4_instance_shape` on the concrete definition task. -/
theorem c4_instance_shape_witness :
    (generateRecurringTasks c4Parent 2 c1IdGen).all
      (fun inst => decide (inst.recurrence_rule = none ∧
        inst.is_recurring = false ∧
        inst.parent_task_id = some c4Parent.id ∧
        inst.id ≠ c4Parent.id ∧
        inst.title = c4Parent.title ∧
        inst.priority = c4Parent.priority ∧
        inst.reminder_type = ReminderType.none ∧
        inst.is_important = false ∧
        inst.reminder_sent = false)) = true := by
  rw [List.all_eq_true]
  intro inst hmem
  rw [decide_eq_true_eq]
  exact c4_instance_shape c4Parent 2 c1IdGen
    (fun n => c1IdGen_ne_short n c4Parent.id (by decide)) inst hmem

/-! ## Schedule recommender (`DeepSeekService._fallback_schedule_analysis`)

The route layer hands the recommender each task as a dict with `start`/`end`
ISO strings; `datetime.fromisoformat` raising (on `None` or an unparsable
string) is modelled by an `Option` field being `none`, and the `try/except`
around the scan by `Except`.  `duration_hours` is modelled at minute
granularity. -/

structure WorkInfo where
  title : String
  description : String
  duration_minutes : Int
  deadline : Option Int
  priority : TaskPriority
deriving DecidableEq

structure RawTask where
  start : Option Int
  «end» : Option Int
deriving DecidableEq

structure TimeSlot where
  start : Int
  «end» : Int
  score : Int
  reason : String
deriving DecidableEq

/-- `datetime.replace(hour=0, minute=0, second=0, microsecond=0)`. -/
def dayStart (t : Int) : Int := t - t % minutesPerDay

/-- Python `datetime.hour`. -/
def hourOf (t : Int) : Int := t % minutesPerDay / 60

/-- `datetime.fromisoformat` on the route-provided value; raising is the
`error` case. -/
def fromIso : Option Int → Except Unit Int
  | some t => .ok t
  | none => .error ()

/-- Substring test on character lists (Python's `in` on strings). -/
def containsSublist (sub : List Char) : List Char → Bool
  | [] => sub.isEmpty
  | c :: rest => sub.isPrefixOf (c :: rest) || containsSublist sub rest

/-- Python `word in work_desc`. -/
def strContains (s sub : String) : Bool := containsSublist sub.data s.data

/-- The keyword-matched candidate start hours of
`_fallback_schedule_analysis` (creative / meeting / study / default). -/
def recommendedHours (work_desc : String) : List Int :=
  if ["创意", "设计", "写作", "思考"].any (fun w => strContains work_desc w) then
    [9, 10]
  else if ["会议", "讨论", "沟通", "汇报"].any (fun w => strContains work_desc w) then
    [10, 14, 15]
  else if ["学习", "阅读", "研究"].any (fun w => strContains work_desc w) then
    [9, 19, 20]
  else
    [9, 14, 16]

/-- The per-candidate conflict loop: parse each existing task's `start` and
`end`, break at the first half-open overlap, propagate a parse exception. -/
def hasConflict (start_time end_time : Int) : List RawTask → Except Unit Bool
  | [] => .ok false
  | task :: rest =>
    match fromIso task.start with
    | .error e => .error e
    | .ok task_start =>
      match fromIso task.«end» with
      | .error e => .error e
      | .ok task_end =>
        if start_time < task_end ∧ end_time > task_start then .ok true
        else hasConflict start_time end_time rest

/-- The additive score of a surviving slot, clamped to `[1, 10]`
(`timedelta.days` is floor division by a day, matching `Int` division). -/
def slotScore (wi : WorkInfo) (hour : Int) (start_time : Int) : Int :=
  let score : Int := 5
  let score := if 9 ≤ hour ∧ hour ≤ 11 then score + 2
    else if 14 ≤ hour ∧ hour ≤ 16 then score + 1
    else score
  let score :=
    match wi.deadline with
    | some deadline =>
      let days_until_deadline := (deadline - start_time) / minutesPerDay
      if days_until_deadline ≤ 1 then score + 3
      else if days_until_deadline ≤ 3 then score + 1
      else score
    | none => score
  let score := if wi.priority = .high then score + 1
    else if wi.priority = .low then score - 1
    else score
  min 10 (max 1 score)

/-- The human-readable `reason` string (`strftime` formatting abstracted
to `toString`). -/
def reasonText (start_time : Int) (dur : Int) : String :=
  "推荐在" ++ toString start_time ++ "进行，预计" ++ toString dur ++ "分钟完成"

/-- The inner `for hour in recommended_hours` loop of one scanned day. -/
def hoursLoop (wi : WorkInfo) (existing : List RawTask) (target_date : Int) :
    List Int → Except Unit (List TimeSlot)
  | [] => .ok []
  | hour :: rest =>
    let start_time := dayStart target_date + 60 * hour
    let end_time := start_time + wi.duration_minutes
    match hasConflict start_time end_time existing with
    | .error e => .error e
    | .ok conflict =>
      match hoursLoop wi existing target_date rest with
      | .error e => .error e
      | .ok tail =>
        if conflict then .ok tail
        else .ok ({ start := start_time, «end» := end_time
                    score := slotScore wi hour start_time
                    reason := reasonText start_time wi.duration_minutes } :: tail)

/-- One iteration of the `for day_offset in range(7)` loop, including the
"skip today after 18:00" rule. -/
def daySlots (wi : WorkInfo) (existing : List RawTask) (current_time : Int)
    (day_offset : Nat) : Except Unit (List TimeSlot) :=
  if day_offset = 0 ∧ hourOf (current_time + minutesPerDay * day_offset) ≥ 18 then
    .ok []
  else
    hoursLoop wi existing (current_time + minutesPerDay * day_offset)
      (recommendedHours wi.description.toLower)

/-- The outer day loop, accumulating slots in scan order. -/
def daysLoop (wi : WorkInfo) (existing : List RawTask) (current_time : Int) :
    List Nat → Except Unit (List TimeSlot)
  | [] => .ok []
  | d :: ds =>
    match daySlots wi existing current_time d with
    | .error e => .error e
    | .ok first =>
      match daysLoop wi existing current_time ds with
      | .error e => .error e
      | .ok rest => .ok (first ++ rest)

/-- The whole `try` body: scan seven days, sort by score descending (Python's
sort is stable, as is `mergeSort`), return the top five. -/
def scanSlots (wi : WorkInfo) (existing : List RawTask) (current_time : Int) :
    Except Unit (List TimeSlot) :=
  match daysLoop wi existing current_time (List.range 7) with
  | .error e => .error e
  | .ok slots => .ok ((slots.mergeSort (fun a b => b.score ≤ a.score)).take 5)

/-- The `except` branch: a single default slot at 09:00 tomorrow, score 5. -/
def defaultSlot (wi : WorkInfo) (current_time : Int) : TimeSlot :=
  let tomorrow := current_time + minutesPerDay
  let start_time := dayStart tomorrow + 60 * 9
  { start := start_time
    «end» := start_time + wi.duration_minutes
    score := 5
    reason := "默认推荐时间段" }

/-- Embedding of `_fallback_schedule_analysis`: the scan result, or the
default slot when the scan raised. -/
def fallbackScheduleAnalysis (wi : WorkInfo) (existing : List RawTask)
    (current_time : Int) : List TimeSlot :=
  match scanSlots wi existing current_time with
  | .ok slots => slots
  | .error _ => [defaultSlot wi current_time]

/-! ## Lemmas about the conflict scan -/

theorem hasConflict_ok_false {s e : Int} :
    ∀ {tasks : List RawTask}, hasConflict s e tasks = .ok false →
    ∀ t ∈ tasks, ∀ ts te, t.start = some ts → t.«end» = some te →
      ¬(s < te ∧ e > ts) := by
  intro tasks
  induction tasks with
  | nil =>
    intro _ t ht
    simp at ht
  | cons t0 rest ih =>
    intro h t ht ts te hts hte hover
    rw [hasConflict] at h
    cases t0s : t0.start with
    | none =>
      rw [t0s] at h
      simp [fromIso] at h
    | some v =>
      rw [t0s] at h
      cases t0e : t0.«end» with
      | none =>
        rw [t0e] at h
        simp [fromIso] at h
      | some w =>
        rw [t0e] at h
        simp only [fromIso] at h
        by_cases hc : s < w ∧ e > v
        · rw [if_pos hc] at h
          simp at h
        · rw [if_neg hc] at h
          rcases List.mem_cons.mp ht with rfl | hmem
          · rw [hts] at t0s
            rw [hte] at t0e
            cases Option.some.inj t0s
            cases Option.some.inj t0e
            exact hc hover
          · exact ih h t hmem ts te hts hte hover

theorem hasConflict_no_error {s e : Int} :
    ∀ {tasks : List RawTask},
      (∀ t ∈ tasks, t.start.isSome ∧ t.«end».isSome) →
      ∃ b, hasConflict s e tasks = .ok b := by
  intro tasks
  induction tasks with
  | nil =>
    intro _
    exact ⟨false, rfl⟩
  | cons t0 rest ih =>
    intro hall
    obtain ⟨hs0, he0⟩ := hall t0 (List.mem_cons_self t0 rest)
    obtain ⟨v, hv⟩ := Option.isSome_iff_exists.mp hs0
    obtain ⟨w, hw⟩ := Option.isSome_iff_exists.mp he0
    rw [hasConflict, hv, hw]
    simp only [fromIso]
    by_cases hc : s < w ∧ e > v
    · rw [if_pos hc]
      exact ⟨true, rfl⟩
    · rw [if_neg hc]
      exact ih fun t ht => hall t (List.mem_cons_of_mem t0 ht)

theorem hasConflict_of_overlap {s e : Int} :
    ∀ {tasks : List RawTask},
      (∀ t ∈ tasks, t.start.isSome ∧ t.«end».isSome) →
      (∃ t ∈ tasks, ∃ ts te, t.start = some ts ∧ t.«end» = some te ∧
        s < te ∧ e > ts) →
      hasConflict s e tasks = .ok true := by
  intro tasks
  induction tasks with
  | nil =>
    intro _ hov
    simp at hov
  | cons t0 rest ih =>
    intro hall hov
    obtain ⟨hs0, he0⟩ := hall t0 (List.mem_cons_self t0 rest)
    obtain ⟨v, hv⟩ := Option.isSome_iff_exists.mp hs0
    obtain ⟨w, hw⟩ := Option.isSome_iff_exists.mp he0
    rw [hasConflict, hv, hw]
    simp only [fromIso]
    by_cases hc : s < w ∧ e > v
    · rw [if_pos hc]
    · rw [if_neg hc]
      apply ih (fun t ht => hall t (List.mem_cons_of_mem t0 ht))
      obtain ⟨t, ht, ts, te, hts, hte, h1, h2⟩ := hov
      rcases List.mem_cons.mp ht with rfl | hmem
      · rw [hts] at hv
        rw [hte] at hw
        cases Option.some.inj hv
        cases Option.some.inj hw
        exact absurd ⟨h1, h2⟩ hc
      · exact ⟨t, hmem, ts, te, hts, hte, h1, h2⟩

theorem hasConflict_error_of_head_end_none {s e : Int} {t0 : RawTask}
    {rest : List RawTask} (h : t0.«end» = none) :
    hasConflict s e (t0 :: rest) = .error () := by
  rw [hasConflict]
  cases hs0 : t0.start with
  | none => simp [fromIso]
  | some v => simp [fromIso, h]

theorem hoursLoop_mem {wi : WorkInfo} {existing : List RawTask}
    {target_date : Int} :
    ∀ {hs : List Int} {slots : List TimeSlot},
      hoursLoop wi existing target_date hs = .ok slots →
      ∀ slot ∈ slots,
        hasConflict slot.start slot.«end» existing = .ok false := by
  intro hs
  induction hs with
  | nil =>
    intro slots h slot hslot
    rw [hoursLoop] at h
    cases h
    simp at hslot
  | cons hour rest ih =>
    intro slots h slot hslot
    rw [hoursLoop] at h
    cases hc : hasConflict (dayStart target_date + 60 * hour)
        (dayStart target_date + 60 * hour + wi.duration_minutes) existing with
    | error e => rw [hc] at h; cases h
    | ok conflict =>
      rw [hc] at h
      cases htail : hoursLoop wi existing target_date rest with
      | error e => rw [htail] at h; cases h
      | ok tail =>
        rw [htail] at h
        dsimp only at h
        by_cases hcf : conflict
        · rw [if_pos hcf] at h
          cases h
          exact ih htail slot hslot
        · rw [if_neg hcf] at h
          cases h
          rcases List.mem_cons.mp hslot with rfl | hmem
          · have : conflict = false := by
              cases conflict
              · rfl
              · exact absurd rfl hcf
            rw [this] at hc
            exact hc
          · exact ih htail slot hmem

theorem hoursLoop_no_error {wi : WorkInfo} {existing : List RawTask}
    {target_date : Int}
    (hall : ∀ t ∈ existing, t.start.isSome ∧ t.«end».isSome) :
    ∀ (hs : List Int), ∃ slots, hoursLoop wi existing target_date hs = .ok slots := by
  intro hs
  induction hs with
  | nil => exact ⟨[], rfl⟩
  | cons hour rest ih =>
    obtain ⟨tail, htail⟩ := ih
    obtain ⟨b, hb⟩ := @hasConflict_no_error (dayStart target_date + 60 * hour)
      (dayStart target_date + 60 * hour + wi.duration_minutes) existing hall
    rw [hoursLoop, hb, htail]
    dsimp only
    by_cases hcf : b
    · rw [if_pos hcf]
      exact ⟨tail, rfl⟩
    · rw [if_neg hcf]
      exact ⟨_, rfl⟩

theorem daysLoop_mem {wi : WorkInfo} {existing : List RawTask}
    {current_time : Int} :
    ∀ {ds : List Nat} {slots : List TimeSlot},
      daysLoop wi existing current_time ds = .ok slots →
      ∀ slot ∈ slots,
        hasConflict slot.start slot.«end» existing = .ok false := by
  intro ds
  induction ds with
  | nil =>
    intro slots h slot hslot
    rw [daysLoop] at h
    cases h
    simp at hslot
  | cons d rest ih =>
    intro slots h slot hslot
    rw [daysLoop] at h
    cases hd : daySlots wi existing current_time d with
    | error e => rw [hd] at h; cases h
    | ok first =>
      rw [hd] at h
      cases hr : daysLoop wi existing current_time rest with
      | error e => rw [hr] at h; cases h
      | ok tail =>
        rw [hr] at h
        dsimp only at h
        cases h
        rcases List.mem_append.mp hslot with hmem | hmem
        · rw [daySlots] at hd
          by_cases hskip : d = 0 ∧ hourOf (current_time + minutesPerDay * d) ≥ 18
          · rw [if_pos hskip] at hd
            cases hd
            simp at hmem
          · rw [if_neg hskip] at hd
            exact hoursLoop_mem hd slot hmem
        · exact ih hr slot hmem

theorem daysLoop_no_error {wi : WorkInfo} {existing : List RawTask}
    {current_time : Int}
    (hall : ∀ t ∈ existing, t.start.isSome ∧ t.«end».isSome) :
    ∀ (ds : List Nat), ∃ slots, daysLoop wi existing current_time ds = .ok slots := by
  intro ds
  induction ds with
  | nil => exact ⟨[], rfl⟩
  | cons d rest ih =>
    obtain ⟨tail, htail⟩ := ih
    by_cases hskip : d = 0 ∧ hourOf (current_time + minutesPerDay * d) ≥ 18
    · have hd : daySlots wi existing current_time d = .ok [] := by
        rw [daySlots, if_pos hskip]
      rw [daysLoop, hd, htail]
      exact ⟨tail, rfl⟩
    · obtain ⟨first, hfirst⟩ := hoursLoop_no_error hall
        (recommendedHours wi.description.toLower)
      have hd : daySlots wi existing current_time d = .ok first := by
        rw [daySlots, if_neg hskip]
        exact hfirst
      rw [daysLoop, hd, htail]
      exact ⟨first ++ tail, rfl⟩

/-! ## Claim C2: returned slots never overlap an existing task -/

/-- Claim C2: for every work request and every list of existing tasks each
carrying a parseable start and end, no slot returned by the local schedule
recommendation half-open-overlaps any existing task. -/
theorem c2_no_overlap (wi : WorkInfo) (existing : List RawTask)
    (current_time : Int)
    (hall : ∀ t ∈ existing, t.start.isSome ∧ t.«end».isSome) :
    ∀ slot ∈ fallbackScheduleAnalysis wi existing current_time,
      ∀ t ∈ existing, ∀ ts te, t.start = some ts → t.«end» = some te →
        ¬(slot.start < te ∧ slot.«end» > ts) := by
  intro slot hslot t ht ts te hts hte
  obtain ⟨slots, hslots⟩ := daysLoop_no_error hall (List.range 7)
  have hscan : scanSlots wi existing current_time =
      .ok ((slots.mergeSort (fun a b => b.score ≤ a.score)).take 5) := by
    rw [scanSlots, hslots]
  rw [fallbackScheduleAnalysis, hscan] at hslot
  dsimp only at hslot
  have hmem : slot ∈ slots := by
    have h1 : slot ∈ slots.mergeSort (fun a b => b.score ≤ a.score) :=
      List.take_subset 5 _ hslot
    exact List.mem_mergeSort.mp h1
  exact hasConflict_ok_false (daysLoop_mem hslots slot hmem) t ht ts te hts hte

/-- A work request and a pair of busy tasks used as concrete inputs. -/
def c2Wi : WorkInfo :=
  { title := "测试"
    description := "工作任务"
    duration_minutes := 120
    deadline := some (mkDateTime 2024 1 3 1080)
    priority := .medium }

def c2Tasks : List RawTask :=
  [{ start := some (mkDateTime 2024 1 2 540), «end» := some (mkDateTime 2024 1 2 600) },
   { start := some (mkDateTime 2024 1 3 840), «end» := some (mkDateTime 2024 1 3 960) }]

/-- Half-open non-overlap of a slot against one raw task, as a boolean. -/
def noOverlapB (slot : TimeSlot) (t : RawTask) : Bool :=
  match t.start, t.«end» with
  | some ts, some te => !(slot.start < te ∧ slot.«end» > ts)
  | _, _ => true

/-- Witness for `c2_no_overlap` at a concrete request, task list and clock. -/
theorem c2_no_overlap_witness :
    (fallbackScheduleAnalysis c2Wi c2Tasks (mkDateTime 2024 1 2 480)).all
      (fun slot => c2Tasks.all (fun t => noOverlapB slot t)) = true := by
  rw [List.all_eq_true]
  intro slot hslot
  rw [List.all_eq_true]
  intro t ht
  have hthm := c2_no_overlap c2Wi c2Tasks (mkDateTime 2024 1 2 480) (by decide)
    slot hslot t ht
  rw [noOverlapB]
  cases hs : t.start with
  | none => rfl
  | some ts =>
    cases he : t.«end» with
    | none => rfl
    | some te =>
      simp only [Bool.not_eq_true', decide_eq_false_iff_not]
      exact hthm ts te hs he

/-! ## Claim C8: the all-conflicting scan -/

theorem recommendedHours_bounds (s : String) :
    ∀ h ∈ recommendedHours s, 9 ≤ h ∧ h ≤ 20 := by
  intro h hmem
  rw [recommendedHours] at hmem
  split_ifs at hmem <;> fin_cases hmem <;> norm_num

theorem recommendedHours_ne_nil (s : String) : recommendedHours s ≠ [] := by
  rw [recommendedHours]
  split_ifs <;> simp

theorem dayStart_add_days (t : Int) (k : Int) :
    dayStart (t + minutesPerDay * k) = dayStart t + minutesPerDay * k := by
  unfold dayStart minutesPerDay
  have h : (t + 1440 * k) % 1440 = t % 1440 := by
    omega
  rw [h]
  ring

theorem hoursLoop_all_conflict {wi : WorkInfo} {existing : List RawTask}
    {target_date : Int} :
    ∀ {hs : List Int},
      (∀ hour ∈ hs,
        hasConflict (dayStart target_date + 60 * hour)
          (dayStart target_date + 60 * hour + wi.duration_minutes) existing =
          .ok true) →
      hoursLoop wi existing target_date hs = .ok [] := by
  intro hs
  induction hs with
  | nil => intro _; rfl
  | cons hour rest ih =>
    intro hall
    rw [hoursLoop, hall hour (List.mem_cons_self hour rest),
      ih fun h hm => hall h (List.mem_cons_of_mem hour hm)]
    dsimp only
    rw [if_pos rfl]

theorem daysLoop_all_empty {wi : WorkInfo} {existing : List RawTask}
    {current_time : Int} :
    ∀ {ds : List Nat},
      (∀ d ∈ ds, daySlots wi existing current_time d = .ok []) →
      daysLoop wi existing current_time ds = .ok [] := by
  intro ds
  induction ds with
  | nil => intro _; rfl
  | cons d rest ih =>
    intro hall
    rw [daysLoop, hall d (List.mem_cons_self d rest),
      ih fun x hm => hall x (List.mem_cons_of_mem d hm)]
    rfl

/-- A first existing task that parses and already overlaps the candidate makes
the conflict loop stop with `True` before looking at the rest of the list. -/
theorem hasConflict_head_overlap {s e ts te : Int} {t0 : RawTask}
    {rest : List RawTask} (hts : t0.start = some ts) (hte : t0.«end» = some te)
    (hov : s < te ∧ e > ts) :
    hasConflict s e (t0 :: rest) = .ok true := by
  rw [hasConflict, hts, hte]
  simp only [fromIso]
  rw [if_pos hov]

/-- When the head of the task list covers the whole 7-day scan window, every
candidate conflicts with it immediately and the scan produces no slot at all
(regardless of whether later tasks would parse). -/
theorem fallback_empty_of_head_cover (wi : WorkInfo) (t0 : RawTask)
    (rest : List RawTask) (current_time ts te : Int)
    (hts : t0.start = some ts) (hte : t0.«end» = some te)
    (hlo : ts ≤ dayStart current_time)
    (hhi : dayStart current_time + 9 * minutesPerDay ≤ te)
    (hdur : 1 ≤ wi.duration_minutes) :
    fallbackScheduleAnalysis wi (t0 :: rest) current_time = [] := by
  have hdays : daysLoop wi (t0 :: rest) current_time (List.range 7) = .ok [] := by
    apply daysLoop_all_empty
    intro d hd
    have hd6 : d ≤ 6 := by
      have := List.mem_range.mp hd
      omega
    rw [daySlots]
    by_cases hskip : d = 0 ∧ hourOf (current_time + minutesPerDay * d) ≥ 18
    · rw [if_pos hskip]
    · rw [if_neg hskip]
      apply hoursLoop_all_conflict
      intro hour hmem
      obtain ⟨h9, h20⟩ := recommendedHours_bounds _ hour hmem
      apply hasConflict_head_overlap hts hte
      rw [dayStart_add_days]
      unfold minutesPerDay at hhi ⊢
      have hdle : (d : Int) ≤ 6 := by exact_mod_cast hd6
      have hd0 : (0 : Int) ≤ (d : Int) := Int.natCast_nonneg d
      omega
  rw [fallbackScheduleAnalysis, scanSlots, hdays]
  dsimp only
  rw [List.mergeSort_nil]
  rfl

/-- Claim C8 as stated is false: when every candidate slot in the 7-day scan
conflicts with an existing task, the function returns the *empty list*, not a
single fallback slot — the except-branch fallback only fires on an exception.
Here one existing task covers the whole scan window. -/
theorem c8_counterexample :
    fallbackScheduleAnalysis
      { title := "w", description := "工作任务", duration_minutes := 60,
        deadline := none, priority := .medium }
      [{ start := some 0, «end» := some (20 * 1440) }] 600 = [] :=
  fallback_empty_of_head_cover _ _ [] 600 0 (20 * 1440) rfl rfl
    (by decide) (by decide) (by decide)

/-- Claim C8 (amended): when every candidate slot of the 7-day scan conflicts
with some existing task — the conflict check answers `True` for each scanned
day and candidate hour, so zero candidates survive — the recommendation
returns the empty list; the single 09:00-next-day fallback slot is produced
only by the exception path, not by an all-conflicting scan. -/
theorem c8_all_conflicting_returns_empty (wi : WorkInfo) (existing : List RawTask)
    (current_time : Int)
    (hconf : ∀ d ∈ List.range 7,
      ¬(d = 0 ∧ hourOf (current_time + minutesPerDay * d) ≥ 18) →
      ∀ hour ∈ recommendedHours wi.description.toLower,
        hasConflict (dayStart (current_time + minutesPerDay * d) + 60 * hour)
          (dayStart (current_time + minutesPerDay * d) + 60 * hour +
            wi.duration_minutes) existing = .ok true) :
    fallbackScheduleAnalysis wi existing current_time = [] := by
  have hdays : daysLoop wi existing current_time (List.range 7) = .ok [] := by
    apply daysLoop_all_empty
    intro d hd
    rw [daySlots]
    by_cases hskip : d = 0 ∧ hourOf (current_time + minutesPerDay * d) ≥ 18
    · rw [if_pos hskip]
    · rw [if_neg hskip]
      exact hoursLoop_all_conflict fun hour hmem => hconf d hd hskip hour hmem
  rw [fallbackScheduleAnalysis, scanSlots, hdays]
  dsimp only
  rw [List.mergeSort_nil]
  rfl

/-- Witness for `c8_all_conflicting_returns_empty` at a concrete input: one
existing task runs from time 0 to day 20, so every candidate of the scan
(days 0-6, hours 9-20) conflicts with it. -/
theorem c8_all_conflicting_witness :
    fallbackScheduleAnalysis
      { title := "w", description := "工作任务", duration_minutes := 60,
        deadline := none, priority := .medium }
      [{ start := some 0, «end» := some (20 * 1440) }] 600 = [] :=
  c8_all_conflicting_returns_empty _ _ 600 (by
    intro d hd hskip hour hmem
    obtain ⟨h9, h20⟩ := recommendedHours_bounds _ hour hmem
    have hd6 : d ≤ 6 := by
      have := List.mem_range.mp hd
      omega
    apply hasConflict_head_overlap rfl rfl
    rw [dayStart_add_days]
    have h0 : dayStart 600 = 0 := by decide
    rw [h0]
    unfold minutesPerDay
    dsimp only
    have hdle : (d : Int) ≤ 6 := by exact_mod_cast hd6
    have hd0 : (0 : Int) ≤ (d : Int) := Int.natCast_nonneg d
    constructor
    · omega
    · omega)

/-! ## Claim C10: a task with a missing end value -/

theorem hoursLoop_error_of_head_end_none {wi : WorkInfo} {t0 : RawTask}
    {rest : List RawTask} {target_date : Int} (hend : t0.«end» = none) :
    hoursLoop wi (t0 :: rest) target_date
      (recommendedHours wi.description.toLower) = .error () := by
  cases hh : recommendedHours wi.description.toLower with
  | nil => exact absurd hh (recommendedHours_ne_nil _)
  | cons h hs =>
    rw [hoursLoop, hasConflict_error_of_head_end_none hend]

theorem scanSlots_error_of_head_end_none {wi : WorkInfo} {t0 : RawTask}
    {rest : List RawTask} {current_time : Int} (hend : t0.«end» = none) :
    scanSlots wi (t0 :: rest) current_time = .error () := by
  have herr_day : ∀ d : Nat, d ≠ 0 →
      daySlots wi (t0 :: rest) current_time d = .error () := by
    intro d hd
    rw [daySlots, if_neg (fun hc => hd hc.1)]
    exact hoursLoop_error_of_head_end_none hend
  have hr7 : List.range 7 = 0 :: [1, 2, 3, 4, 5, 6] := rfl
  rw [scanSlots, hr7, daysLoop]
  by_cases hskip : (0 : Nat) = 0 ∧ hourOf (current_time + minutesPerDay * (0 : Nat)) ≥ 18
  · have hd0 : daySlots wi (t0 :: rest) current_time 0 = .ok [] := by
      rw [daySlots, if_pos hskip]
    rw [hd0]
    dsimp only
    rw [daysLoop, herr_day 1 (by norm_num)]
  · have hd0 : daySlots wi (t0 :: rest) current_time 0 = .error () := by
      rw [daySlots, if_neg hskip]
      exact hoursLoop_error_of_head_end_none hend
    rw [hd0]

def c10Wi : WorkInfo :=
  { title := "w"
    description := "工作任务"
    duration_minutes := 60
    deadline := none
    priority := .medium }

/-- A task list whose second entry has a missing end, but whose first entry
covers the whole scan window, so the conflict loop always breaks before
reaching the broken entry. -/
def c10Tasks : List RawTask :=
  [{ start := some 0, «end» := some (20 * 1440) },
   { start := some 0, «end» := none }]

/-- Claim C10 as stated is false: a task with a missing end only aborts the
scan if the conflict loop actually reaches it.  Here such a task is present,
yet every conflict check breaks at the earlier all-covering task, no exception
is raised, and the function returns the empty list instead of the single
09:00 next-day slot the claim promises. -/
theorem c10_counterexample :
    (c10Tasks.any fun t => t.«end».isNone) = true ∧
    fallbackScheduleAnalysis c10Wi c10Tasks 600 = [] :=
  ⟨by decide,
    fallback_empty_of_head_cover _ _ _ 600 0 (20 * 1440) rfl rfl
      (by decide) (by decide) (by decide)⟩

/-- Claim C10 (amended): when the *first* task in the existing-task list has a
missing end value, every conflict check raises before completing, the scan is
abandoned via the exception path, and the function returns exactly one slot
starting at 09:00 on the following day with score 5, never checked for
overlap against any existing task. -/
theorem c10_first_task_missing_end (wi : WorkInfo) (t0 : RawTask)
    (rest : List RawTask) (current_time : Int) (hend : t0.«end» = none) :
    fallbackScheduleAnalysis wi (t0 :: rest) current_time =
      [defaultSlot wi current_time] ∧
    (defaultSlot wi current_time).score = 5 ∧
    (defaultSlot wi current_time).start =
      dayStart (current_time + minutesPerDay) + 60 * 9 := by
  refine ⟨?_, rfl, rfl⟩
  rw [fallbackScheduleAnalysis, scanSlots_error_of_head_end_none hend]

/-- Witness for `c10_first_task_missing_end` at a concrete input. -/
theorem c10_first_task_missing_end_witness :
    fallbackScheduleAnalysis c10Wi [{ start := some 0, «end» := none }] 600 =
      [defaultSlot c10Wi 600] ∧
    (defaultSlot c10Wi 600).score = 5 ∧
    (defaultSlot c10Wi 600).start = dayStart (600 + minutesPerDay) + 60 * 9 :=
  c10_first_task_missing_end c10Wi { start := some 0, «end» := none } [] 600 rfl

/-! ## TTL cache (`DeepSeekService._get_cached_result` / `_set_cache_result`,
`TaskService._get_query_cache` / `_set_query_cache`)

Both cache instances run the same get/set logic and differ only in their TTL
constant (600 seconds for the DeepSeek result cache, 30 for the task-service
query cache), so the embedding is parameterized by the TTL.  Python dicts are
association lists where a set replaces the previous binding. -/

def dictGet {V : Type} : List (String × V) → String → Option V
  | [], _ => none
  | p :: rest, k => if p.1 = k then some p.2 else dictGet rest k

def dictSet {V : Type} (l : List (String × V)) (k : String) (v : V) :
    List (String × V) :=
  (k, v) :: l.filter (fun p => p.1 ≠ k)

def dictDel {V : Type} (l : List (String × V)) (k : String) : List (String × V) :=
  l.filter (fun p => p.1 ≠ k)

/-- The two dicts `_cache` / `_cache_timestamps` (resp. `_query_cache` /
`_query_cache_timestamp`) of one cache instance. -/
structure TTLCache (V : Type) where
  cache : List (String × V)
  timestamps : List (String × Int)

def deepseekCacheTTL : Int := 600

def queryCacheTTL : Int := 30

/-- Embedding of `_get_cached_result` (identically `_get_query_cache`):
return `none` on a missing key; delete and miss once
`now - cache_time > ttl`; otherwise return the stored value. -/
def getCachedResult {V : Type} (st : TTLCache V) (ttl : Int) (key : String)
    (now : Int) : Option V × TTLCache V :=
  match dictGet st.cache key with
  | none => (none, st)
  | some v =>
    match dictGet st.timestamps key with
    | some cache_time =>
      if now - cache_time > ttl then
        (none, { cache := dictDel st.cache key
                 timestamps := dictDel st.timestamps key })
      else (some v, st)
    | none => (some v, st)

/-- Embedding of `_set_cache_result` (identically `_set_query_cache`). -/
def setCacheResult {V : Type} (st : TTLCache V) (key : String) (v : V)
    (now : Int) : TTLCache V :=
  { cache := dictSet st.cache key v
    timestamps := dictSet st.timestamps key now }

theorem dictGet_dictSet {V : Type} (l : List (String × V)) (k : String) (v : V) :
    dictGet (dictSet l k v) k = some v := by
  simp [dictSet, dictGet]

theorem dictGet_dictDel {V : Type} (l : List (String × V)) (k : String) :
    dictGet (dictDel l k) k = none := by
  induction l with
  | nil => rfl
  | cons p rest ih =>
    rw [dictDel, List.filter_cons]
    by_cases h : p.1 = k
    · rw [if_neg (by simp [h])]
      simp only [dictDel] at ih
      exact ih
    · rw [if_pos (by simp [h])]
      simp only [dictGet, if_neg h]
      simp only [dictDel] at ih
      exact ih

/-! ## Claim C5: TTL expiry boundary -/

/-- Claim C5 as stated is false at the boundary: the code expires an entry
only when `now - insertedAt > ttl` (strictly), so at exactly `ttl` elapsed the
entry is still a hit, not the miss the claim requires.  Here the query cache
(`ttl = 30`) still returns the stored value 30 seconds after the set. -/
theorem c5_counterexample :
    queryCacheTTL = 30 - 0 ∧
    (getCachedResult (setCacheResult (⟨[], []⟩ : TTLCache Nat) "k" 7 0)
      queryCacheTTL "k" 30).1 = some 7 := by
  constructor
  · rfl
  · rfl

/-- Claim C5 (amended): a get immediately after a set of the same key returns
the stored value while `now - insertedAt ≤ ttl` (the entry is still a hit at
exactly `ttl` elapsed), and once `now - insertedAt > ttl` the get misses and
removes the entry from both dicts. -/
theorem c5_cache_ttl {V : Type} (st : TTLCache V) (key : String) (v : V)
    (t now ttl : Int) :
    (now - t ≤ ttl →
      getCachedResult (setCacheResult st key v t) ttl key now =
        (some v, setCacheResult st key v t)) ∧
    (now - t > ttl →
      (getCachedResult (setCacheResult st key v t) ttl key now).1 = none ∧
      dictGet (getCachedResult (setCacheResult st key v t) ttl key now).2.cache
        key = none ∧
      dictGet
        (getCachedResult (setCacheResult st key v t) ttl key now).2.timestamps
        key = none) := by
  have hv : dictGet (setCacheResult st key v t).cache key = some v :=
    dictGet_dictSet _ _ _
  have ht : dictGet (setCacheResult st key v t).timestamps key = some t :=
    dictGet_dictSet _ _ _
  constructor
  · intro hle
    rw [getCachedResult, hv, ht]
    dsimp only
    rw [if_neg (by omega)]
  · intro hgt
    rw [getCachedResult, hv, ht]
    dsimp only
    rw [if_pos (by omega)]
    exact ⟨rfl, dictGet_dictDel _ _, dictGet_dictDel _ _⟩

/-- Witness for `c5_cache_ttl`: a hit one second before expiry and a miss with
removal one second after, on the query cache instance (`ttl = 30`). -/
theorem c5_cache_ttl_witness :
    (getCachedResult (setCacheResult (⟨[], []⟩ : TTLCache Nat) "k" 7 0)
        queryCacheTTL "k" 29 =
      (some 7, setCacheResult (⟨[], []⟩ : TTLCache Nat) "k" 7 0)) ∧
    ((getCachedResult (setCacheResult (⟨[], []⟩ : TTLCache Nat) "k" 7 0)
        queryCacheTTL "k" 31).1 = none ∧
      dictGet (getCachedResult (setCacheResult (⟨[], []⟩ : TTLCache Nat) "k" 7 0)
        queryCacheTTL "k" 31).2.cache "k" = none ∧
      dictGet (getCachedResult (setCacheResult (⟨[], []⟩ : TTLCache Nat) "k" 7 0)
        queryCacheTTL "k" 31).2.timestamps "k" = none) :=
  ⟨(c5_cache_ttl (⟨[], []⟩ : TTLCache Nat) "k" 7 0 29 queryCacheTTL).1 (by decide),
   (c5_cache_ttl (⟨[], []⟩ : TTLCache Nat) "k" 7 0 31 queryCacheTTL).2 (by decide)⟩

/-! ## Task store and its caches (`TaskService`)

The service owns the data file plus three cache layers: the per-user task
cache (`_cache` / `_cache_timestamp`), the derived query cache
(`_query_cache` / `_query_cache_timestamp`), and the file-data cache
(`_file_data_cache` / `_file_cache_timestamp`).  File I/O is abstracted to a
`store_file` field; `_save_data` writes it, updates metadata (not modelled)
and clears every cache.  Task dicts are modelled by `Task` records. -/

structure StoreData where
  users : List (String × List Task)
deriving DecidableEq

structure TaskServiceState where
  store_file : StoreData
  cache : List (String × List Task)
  cache_timestamp : List (String × Int)
  query_cache : List (String × List Task)
  query_cache_timestamp : List (String × Int)
  file_data_cache : Option StoreData
  file_cache_timestamp : Option Int
deriving DecidableEq

def fileCacheTTL : Int := 10

/-- Embedding of `_load_data`: serve from the file cache while it is fresh,
otherwise re-read the file and repopulate the file cache. -/
def loadData (st : TaskServiceState) (now : Int) : StoreData × TaskServiceState :=
  match st.file_data_cache, st.file_cache_timestamp with
  | some d, some ts =>
    if now - ts < fileCacheTTL then (d, st)
    else (st.store_file,
      { st with file_data_cache := some st.store_file
                file_cache_timestamp := some now })
  | _, _ =>
    (st.store_file,
      { st with file_data_cache := some st.store_file
                file_cache_timestamp := some now })

/-- Embedding of `_save_data`: write the file, then clear all three cache
layers (both dicts of each and the file-cache pair). -/
def saveData (st : TaskServiceState) (data : StoreData) : TaskServiceState :=
  { store_file := data
    cache := []
    cache_timestamp := []
    query_cache := []
    query_cache_timestamp := []
    file_data_cache := none
    file_cache_timestamp := none }

structure TaskCreate where
  title : String
  start : Int
  «end» : Option Int
  priority : Option TaskPriority
  recurrence_rule : Option RecurrenceRule
  is_recurring : Bool
  parent_task_id : Option String
  reminder_type : ReminderType
  is_important : Bool
deriving DecidableEq

/-- The `Task(...)` constructed in `create_task` / `batch_create_tasks`
(`priority or TaskPriority.MEDIUM`: an enum member is truthy, `None` falls
back to medium). -/
def buildTask (tc : TaskCreate) (newId : String) (now : Int) : Task :=
  { id := newId
    title := tc.title
    start := tc.start
    «end» := tc.«end»
    priority := tc.priority.getD .medium
    recurrence_rule := tc.recurrence_rule
    is_recurring := tc.is_recurring
    parent_task_id := tc.parent_task_id
    reminder_type := tc.reminder_type
    is_important := tc.is_important
    reminder_sent := false
    created_at := now
    updated_at := now }

/-- Embedding of `create_task`: build the task, load the data, append it (and
its generated recurring instances when applicable) to the user's list, save. -/
def createTask (st : TaskServiceState) (tc : TaskCreate) (user_id : String)
    (newId : String) (instIdGen : Nat → String) (now : Int) :
    Task × TaskServiceState :=
  let task := buildTask tc newId now
  let data := (loadData st now).1
  let st1 := (loadData st now).2
  let userTasks := (dictGet data.users user_id).getD []
  let userTasks := userTasks ++ [task]
  let userTasks :=
    if task.is_recurring ∧ task.recurrence_rule.isSome then
      userTasks ++ generateRecurringTasks task 52 instIdGen
    else userTasks
  (task, saveData st1 { users := dictSet data.users user_id userTasks })

structure TaskUpdate where
  title : Option String
  start : Option Int
  «end» : Option Int
  priority : Option TaskPriority
  reminder_type : Option ReminderType
  is_important : Option Bool
deriving DecidableEq

/-- The field-by-field `if ... is not None` update block of `update_task` /
`batch_update_tasks`, plus the `updated_at` refresh. -/
def applyUpdate (t : Task) (u : TaskUpdate) (now : Int) : Task :=
  { t with
    title := u.title.getD t.title
    start := u.start.getD t.start
    «end» :=
      match u.«end» with
      | some e => some e
      | none => t.«end»
    priority := u.priority.getD t.priority
    reminder_type := u.reminder_type.getD t.reminder_type
    is_important := u.is_important.getD t.is_important
    updated_at := now }

/-- The first-match update loop of `update_task`. -/
def updateFirst (task_id : String) (u : TaskUpdate) (now : Int) :
    List Task → Option Task × List Task
  | [] => (none, [])
  | t :: ts =>
    if t.id = task_id then (some (applyUpdate t u now), applyUpdate t u now :: ts)
    else
      let r := updateFirst task_id u now ts
      (r.1, t :: r.2)

/-- Embedding of `update_task`: `none` when the user or task is missing (no
save), otherwise update the first match and save. -/
def updateTask (st : TaskServiceState) (task_id : String) (u : TaskUpdate)
    (user_id : String) (now : Int) : Option Task × TaskServiceState :=
  let data := (loadData st now).1
  let st1 := (loadData st now).2
  match dictGet data.users user_id with
  | none => (none, st1)
  | some tasks =>
    let r := updateFirst task_id u now tasks
    match r.1 with
    | none => (none, st1)
    | some t' =>
      (some t', saveData st1 { users := dictSet data.users user_id r.2 })

/-- The first-match delete loop of `delete_task`. -/
def deleteFirst (task_id : String) : List Task → Option (List Task)
  | [] => none
  | t :: ts =>
    if t.id = task_id then some ts
    else (deleteFirst task_id ts).map (fun ts' => t :: ts')

/-- Embedding of `delete_task`: `false` when the user or task is missing (no
save), otherwise remove the first match and save. -/
def deleteTask (st : TaskServiceState) (task_id : String) (user_id : String)
    (now : Int) : Bool × TaskServiceState :=
  let data := (loadData st now).1
  let st1 := (loadData st now).2
  match dictGet data.users user_id with
  | none => (false, st1)
  | some tasks =>
    match deleteFirst task_id tasks with
    | none => (false, st1)
    | some tasks' =>
      (true, saveData st1 { users := dictSet data.users user_id tasks' })

/-- The per-request loop of `batch_create_tasks`: returns the created tasks
and the dicts appended to the user's list (each task followed by its
recurring instances). -/
def batchBuild (idGen : Nat → String) (instGen : Nat → Nat → String) (now : Int) :
    List TaskCreate → Nat → List Task × List Task
  | [], _ => ([], [])
  | tc :: rest, idx =>
    let task := buildTask tc (idGen idx) now
    let extra :=
      if task.is_recurring ∧ task.recurrence_rule.isSome then
        generateRecurringTasks task 52 (instGen idx)
      else []
    let r := batchBuild idGen instGen now rest (idx + 1)
    (task :: r.1, (task :: extra) ++ r.2)

/-- Embedding of `batch_create_tasks`: load once, append every task, save
once. -/
def batchCreateTasks (st : TaskServiceState) (tcs : List TaskCreate)
    (user_id : String) (idGen : Nat → String) (instGen : Nat → Nat → String)
    (now : Int) : List Task × TaskServiceState :=
  let data := (loadData st now).1
  let st1 := (loadData st now).2
  let userTasks := (dictGet data.users user_id).getD []
  let r := batchBuild idGen instGen now tcs 0
  (r.1, saveData st1 { users := dictSet data.users user_id (userTasks ++ r.2) })

/-- Embedding of `batch_delete_tasks`: an empty result with *no save and no
cache invalidation* when the user is missing; otherwise partition the user's
tasks and save once (even when no id matched). -/
def batchDeleteTasks (st : TaskServiceState) (task_ids : List String)
    (user_id : String) (now : Int) : List String × TaskServiceState :=
  let data := (loadData st now).1
  let st1 := (loadData st now).2
  match dictGet data.users user_id with
  | none => ([], st1)
  | some tasks =>
    let deleted_ids := (tasks.filter (fun t => t.id ∈ task_ids)).map Task.id
    let tasks_to_keep := tasks.filter (fun t => ¬ t.id ∈ task_ids)
    (deleted_ids, saveData st1 { users := dictSet data.users user_id tasks_to_keep })

/-- The `{task_id: task_update for ...}` dict comprehension (later entries
overwrite earlier ones). -/
def buildUpdateMap (updates : List (String × TaskUpdate)) :
    List (String × TaskUpdate) :=
  updates.foldl (fun m p => dictSet m p.1 p.2) []

/-- Embedding of `batch_update_tasks`: an empty result with no save when the
user is missing; otherwise apply every matching update and save once. -/
def batchUpdateTasks (st : TaskServiceState) (updates : List (String × TaskUpdate))
    (user_id : String) (now : Int) : List Task × TaskServiceState :=
  let data := (loadData st now).1
  let st1 := (loadData st now).2
  match dictGet data.users user_id with
  | none => ([], st1)
  | some tasks =>
    let m := buildUpdateMap updates
    let tasks' := tasks.map fun t =>
      match dictGet m t.id with
      | some u => applyUpdate t u now
      | none => t
    let updated := (tasks.filter fun t => (dictGet m t.id).isSome).map fun t =>
      match dictGet m t.id with
      | some u => applyUpdate t u now
      | none => t
    (updated, saveData st1 { users := dictSet data.users user_id tasks' })

/-- All six cache fields of the service are empty. -/
def cachesCleared (st : TaskServiceState) : Prop :=
  st.cache = [] ∧ st.cache_timestamp = [] ∧ st.query_cache = [] ∧
  st.query_cache_timestamp = [] ∧ st.file_data_cache = none ∧
  st.file_cache_timestamp = none

theorem cachesCleared_saveData (st : TaskServiceState) (d : StoreData) :
    cachesCleared (saveData st d) :=
  ⟨rfl, rfl, rfl, rfl, rfl, rfl⟩

/-! ## Claim C6: mutating operations clear every cache -/

/-- A service state with a populated query cache and no user "u". -/
def c6State : TaskServiceState :=
  { store_file := { users := [] }
    cache := []
    cache_timestamp := []
    query_cache := [("qk", [])]
    query_cache_timestamp := [("qk", 0)]
    file_data_cache := none
    file_cache_timestamp := none }

/-- Claim C6 as stated is false: `batch_delete_tasks` for a user absent from
the store returns successfully (an empty deleted-id list, no exception) but
returns *before* `_save_data`, so no cache is cleared — here the derived
query cache still holds its entry afterwards. -/
theorem c6_counterexample :
    (batchDeleteTasks c6State ["t1"] "u" 0).1 = [] ∧
    (batchDeleteTasks c6State ["t1"] "u" 0).2.query_cache = [("qk", [])] := by
  constructor
  · rfl
  · rfl

/-- Claim C6 (amended): every mutating task-store operation that actually
writes the store clears, before returning, the per-user task cache, the
derived query cache, and the file-data cache (both dicts / both fields of
each): create and batch-create always; update when it returns a task; delete
when it returns `true`; batch delete / batch update whenever the user exists
in the loaded data.  The batch variants return an empty result without
saving — and so without clearing any cache — when the user is absent. -/
theorem c6_mutations_clear_caches :
    (∀ st tc user_id newId instIdGen now,
      cachesCleared (createTask st tc user_id newId instIdGen now).2) ∧
    (∀ st task_id u user_id now t',
      (updateTask st task_id u user_id now).1 = some t' →
      cachesCleared (updateTask st task_id u user_id now).2) ∧
    (∀ st task_id user_id now,
      (deleteTask st task_id user_id now).1 = true →
      cachesCleared (deleteTask st task_id user_id now).2) ∧
    (∀ st tcs user_id idGen instGen now,
      cachesCleared (batchCreateTasks st tcs user_id idGen instGen now).2) ∧
    (∀ st task_ids user_id now,
      (dictGet (loadData st now).1.users user_id).isSome →
      cachesCleared (batchDeleteTasks st task_ids user_id now).2) ∧
    (∀ st updates user_id now,
      (dictGet (loadData st now).1.users user_id).isSome →
      cachesCleared (batchUpdateTasks st updates user_id now).2) := by
  refine ⟨?_, ?_, ?_, ?_, ?_, ?_⟩
  · intro st tc user_id newId instIdGen now
    exact ⟨rfl, rfl, rfl, rfl, rfl, rfl⟩
  · intro st task_id u user_id now t' h
    rw [updateTask] at h ⊢
    split at h
    · exact absurd h (by simp)
    · dsimp only at h ⊢
      split at h
      · exact absurd h (by simp)
      · exact ⟨rfl, rfl, rfl, rfl, rfl, rfl⟩
  · intro st task_id user_id now h
    rw [deleteTask] at h ⊢
    split at h
    · exact absurd h (by simp)
    · split at h
      · exact absurd h (by simp)
      · exact ⟨rfl, rfl, rfl, rfl, rfl, rfl⟩
  · intro st tcs user_id idGen instGen now
    exact ⟨rfl, rfl, rfl, rfl, rfl, rfl⟩
  · intro st task_ids user_id now h
    rw [batchDeleteTasks]
    cases hu : dictGet (loadData st now).1.users user_id with
    | none =>
      rw [hu] at h
      cases h
    | some tasks =>
      dsimp only
      exact ⟨rfl, rfl, rfl, rfl, rfl, rfl⟩
  · intro st updates user_id now h
    rw [batchUpdateTasks]
    cases hu : dictGet (loadData st now).1.users user_id with
    | none =>
      rw [hu] at h
      cases h
    | some tasks =>
      dsimp only
      exact ⟨rfl, rfl, rfl, rfl, rfl, rfl⟩

/-- A service state whose store has user "u" owning one task "t1", with a
stale entry in every cache layer. -/
def c6StateB : TaskServiceState :=
  { store_file := { users := [("u", [c1Parent])] }
    cache := [("u", [])]
    cache_timestamp := [("u", 0)]
    query_cache := [("qk", [])]
    query_cache_timestamp := [("qk", 0)]
    file_data_cache := some { users := [("u", [c1Parent])] }
    file_cache_timestamp := some 0 }

def c6NoUpdate : TaskUpdate :=
  { title := some "renamed"
    start := none
    «end» := none
    priority := none
    reminder_type := none
    is_important := none }

/-- Witness for `c6_mutations_clear_caches`: a successful update and a
batch delete for an existing user both leave every cache empty. -/
theorem c6_mutations_clear_caches_witness :
    cachesCleared (updateTask c6StateB "task_c1" c6NoUpdate "u" 5).2 ∧
    cachesCleared (batchDeleteTasks c6StateB ["task_c1"] "u" 5).2 :=
  ⟨c6_mutations_clear_caches.2.1 c6StateB "task_c1" c6NoUpdate "u" 5
      (applyUpdate c1Parent c6NoUpdate 5) rfl,
   c6_mutations_clear_caches.2.2.2.2.1 c6StateB ["task_c1"] "u" 5 rfl⟩

/-! ## Async job queue (`async_task_queue.py`)

A submitted operation either returns a value or raises; the call
`task.func(*task.args, **task.kwargs)` is modelled by an `Except` outcome
captured in the job record.  `_process_task` is the per-job state
transition; a worker that drains its queue is the fold of that transition
over the queued jobs. -/

inductive JobStatus
  | pending
  | processing
  | completed
  | failed
deriving DecidableEq

structure AsyncJob (V : Type) where
  task_id : String
  func : Except String V
  status : JobStatus
  result : Option V
  error : Option String
  created_at : Int
  started_at : Option Int
  completed_at : Option Int

/-- Embedding of `_process_task`: mark processing with a start time, invoke
the operation, record the result or capture the exception message into
`error` with `status = failed`, and always record the completion time
(`finally`).  The exception never escapes. -/
def processTask {V : Type} (job : AsyncJob V) (start_t complete_t : Int) :
    AsyncJob V :=
  let job := { job with status := JobStatus.processing, started_at := some start_t }
  let job :=
    match job.func with
    | .ok r => { job with result := some r, status := JobStatus.completed }
    | .error e => { job with error := some e, status := JobStatus.failed }
  { job with completed_at := some complete_t }

/-- A worker draining its queue: every dequeued job is processed by
`_process_task`; per-job failures are already absorbed there, so processing
continues with the next job unconditionally. -/
def workerRun {V : Type} (jobs : List (AsyncJob V)) (times : Nat → Int × Int) :
    List (AsyncJob V) :=
  (jobs.zip (List.range jobs.length)).map fun p =>
    processTask p.1 (times p.2).1 (times p.2).2

/-! ## Claim C7: a raising operation fails its job and spares the worker -/

/-- Claim C7: a job whose operation raises ends with the exception message in
`error`, `status = failed` and a recorded completion time; the exception is
absorbed inside `_process_task`, so a worker processes every job in its
queue — each ends `completed` or `failed` and none is skipped. -/
theorem c7_failed_job_is_captured {V : Type} (job : AsyncJob V) (msg : String)
    (start_t complete_t : Int) (hf : job.func = .error msg) :
    ((processTask job start_t complete_t).error = some msg ∧
     (processTask job start_t complete_t).status = JobStatus.failed ∧
     (processTask job start_t complete_t).completed_at = some complete_t) ∧
    (∀ (jobs : List (AsyncJob V)) (times : Nat → Int × Int),
      (workerRun jobs times).length = jobs.length ∧
      ∀ j ∈ workerRun jobs times,
        j.status = JobStatus.completed ∨ j.status = JobStatus.failed) := by
  constructor
  · rw [processTask]
    dsimp only
    rw [hf]
    exact ⟨rfl, rfl, rfl⟩
  · intro jobs times
    constructor
    · rw [workerRun]
      rw [List.length_map, List.length_zip, List.length_range]
      omega
    · intro j hj
      rw [workerRun] at hj
      obtain ⟨p, _, hp⟩ := List.mem_map.mp hj
      rw [← hp]
      rw [processTask]
      dsimp only
      cases p.1.func with
      | ok r => left; rfl
      | error e => right; rfl

/-- A job whose operation raises with message "boom". -/
def c7Job : AsyncJob Nat :=
  { task_id := "j1"
    func := .error "boom"
    status := JobStatus.pending
    result := none
    error := none
    created_at := 0
    started_at := none
    completed_at := none }

/-- A job whose operation returns 42. -/
def c7JobOk : AsyncJob Nat :=
  { task_id := "j2"
    func := .ok 42
    status := JobStatus.pending
    result := none
    error := none
    created_at := 0
    started_at := none
    completed_at := none }

/-- Witness for `c7_failed_job_is_captured` on a concrete raising job and a
two-job queue. -/
theorem c7_failed_job_is_captured_witness :
    ((processTask c7Job 1 2).error = some "boom" ∧
     (processTask c7Job 1 2).status = JobStatus.failed ∧
     (processTask c7Job 1 2).completed_at = some 2) ∧
    (∀ (jobs : List (AsyncJob Nat)) (times : Nat → Int × Int),
      (workerRun jobs times).length = jobs.length ∧
      ∀ j ∈ workerRun jobs times,
        j.status = JobStatus.completed ∨ j.status = JobStatus.failed) :=
  c7_failed_job_is_captured c7Job "boom" 1 2 rfl

end SmartTime
